import Mathlib

/-!
# Verification of queuectl (src/queuectl.py)

A shallow embedding of the queuectl job queue: the SQLite-backed job store is
modelled as a list of rows (in rowid order) plus a key/value config table, and
each database-touching operation of the source is translated into a pure Lean
function over that state.  Timestamps are the ISO text strings the source
stores, compared lexicographically as SQLite compares TEXT columns.
-/

namespace Queuectl

/-- `DEFAULT_MAX_RETRIES` constant of the source. -/
def DEFAULT_MAX_RETRIES : Int := 3

/-- `DEFAULT_BACKOFF_BASE` constant of the source. -/
def DEFAULT_BACKOFF_BASE : Int := 2

/-- One row of the `jobs` table (schema in `init_db`): `id TEXT PRIMARY KEY,
command TEXT, state TEXT, attempts INTEGER, max_retries INTEGER, created_at
TEXT, updated_at TEXT, priority INTEGER, run_at TEXT` (nullable).
`attempts` is a `Nat`: every write of the source stores `0` or `attempts + 1`. -/
structure Job where
  id : String
  command : String
  state : String
  attempts : Nat
  max_retries : Int
  created_at : String
  updated_at : String
  priority : Int
  run_at : Option String
deriving Repr, DecidableEq

/-- The whole database: the `jobs` table in rowid (insertion) order and the
`config` table as an association list keyed by `key`. -/
structure Store where
  jobs : List Job
  config : List (String × String)
deriving Repr, DecidableEq

/-- Result of Python `int(s)` on a string: optional surrounding whitespace,
an optional sign, then one or more digits; anything else raises, which the
embedding reports as `none`. -/
def pyIntOfString (s : String) : Option Int :=
  let val : List Char → Int := fun ds =>
    (ds.foldl (fun a d => a * 10 + (d.toNat - 48)) (0 : Nat) : Nat)
  let cs := ((s.toList.dropWhile Char.isWhitespace).reverse.dropWhile
    Char.isWhitespace).reverse
  match cs with
  | [] => none
  | c :: rest =>
    if c = '+' then
      if rest ≠ [] ∧ rest.all Char.isDigit then some (val rest) else none
    else if c = '-' then
      if rest ≠ [] ∧ rest.all Char.isDigit then some (-(val rest)) else none
    else
      if cs.all Char.isDigit then some (val cs) else none

/-- A Python value that a config read can produce: `int(v)` when the stored
text parses as an integer, otherwise the raw string. -/
inductive ConfigValue
  | int (n : Int)
  | str (s : String)
deriving Repr, DecidableEq

/-- `get_config(conn, key, default)`: look the key up in the `config` table;
when present try `int(value)` and fall back to the raw string, when absent
return the default. -/
def get_config (s : Store) (key : String) (default : ConfigValue) : ConfigValue :=
  match s.config.lookup key with
  | some v =>
    match pyIntOfString v with
    | some n => ConfigValue.int n
    | none => ConfigValue.str v
  | none => default

/-- Python truthiness of `data.get(field)` for a string-valued field: falsy
when the key is absent (`None`) or the string is empty. -/
def pyTruthyStr : Option String → Bool
  | none => false
  | some s => decide (s ≠ "")

/-- A parsed enqueue descriptor: the JSON object after `json.loads`, restricted
to the fields `enqueue` reads via `data.get`. -/
structure Descriptor where
  id : Option String
  command : Option String
  max_retries : Option Int
  priority : Option Int
  run_at : Option String
deriving Repr, DecidableEq

/-- The error messages `enqueue` can raise (as `click.ClickException`s). -/
inductive EnqueueError
  | missingId
  | missingCommand
  | duplicate
deriving Repr, DecidableEq

/-- `enqueue(job_json)` after JSON parsing: validate that `id` and `command`
are truthy, then `INSERT` the row; the `id TEXT PRIMARY KEY` constraint makes
the insert fail (`sqlite3.IntegrityError`, reported as "already exists") when a
row with the same id is present.  Returns the error (if any) together with the
store, which is unchanged on every error path. -/
def enqueue (d : Descriptor) (ts : String) (s : Store) :
    Option EnqueueError × Store :=
  if ¬ pyTruthyStr d.id then (some EnqueueError.missingId, s)
  else if ¬ pyTruthyStr d.command then (some EnqueueError.missingCommand, s)
  else
    let job_id := d.id.getD ""
    let command := d.command.getD ""
    if s.jobs.any (fun j => decide (j.id = job_id)) then
      (some EnqueueError.duplicate, s)
    else
      (none,
        { s with
          jobs := s.jobs ++ [{
            id := job_id
            command := command
            state := "pending"
            attempts := 0
            max_retries := d.max_retries.getD DEFAULT_MAX_RETRIES
            created_at := ts
            updated_at := ts
            priority := d.priority.getD 0
            run_at := d.run_at }] })

/-- The `WHERE` clause of `fetch_pending_job`:
`state = 'pending' AND (run_at IS NULL OR run_at <= now)`. -/
def eligibleJob (now : String) (j : Job) : Bool :=
  decide (j.state = "pending") &&
    (match j.run_at with
     | none => true
     | some t => decide (t ≤ now))

/-- Strict "comes first" relation of the `ORDER BY priority DESC, created_at`
clause: `a` sorts strictly before `b`. -/
def betterRow (a b : Job) : Bool :=
  decide (b.priority < a.priority) ||
    (decide (a.priority = b.priority) && decide (a.created_at < b.created_at))

/-- `ORDER BY priority DESC, created_at LIMIT 1` over a list of rows: the
first row (in rowid order) that no other row sorts strictly before. -/
def selectBest : List Job → Option Job
  | [] => none
  | j :: rest =>
    match selectBest rest with
    | none => some j
    | some b => if betterRow b j then some b else some j

/-- The columns of the row `fetch_pending_job` SELECTs and returns to the
caller: `id, command, attempts, max_retries, priority, run_at`. -/
structure JobSnapshot where
  id : String
  command : String
  attempts : Nat
  max_retries : Int
  priority : Int
  run_at : Option String
deriving Repr, DecidableEq

/-- Project a stored row onto the SELECTed columns. -/
def snapshotOf (j : Job) : JobSnapshot :=
  { id := j.id, command := j.command, attempts := j.attempts
    max_retries := j.max_retries, priority := j.priority, run_at := j.run_at }

/-- `fetch_pending_job(conn)`: inside one immediate transaction, select the
first eligible row in `priority DESC, created_at` order (`selNow` is the
`now_iso()` bound into the `WHERE`), and if one exists mark it `processing`
with `updated_at = updNow` (the second `now_iso()` call).  Returns the
pre-mutation snapshot and the new store. -/
def fetch_pending_job (selNow updNow : String) (s : Store) :
    Option JobSnapshot × Store :=
  match selectBest (s.jobs.filter (eligibleJob selNow)) with
  | none => (none, s)
  | some row =>
    (some (snapshotOf row),
      { s with
        jobs := s.jobs.map (fun j =>
          if j.id = row.id then
            { j with state := "processing", updated_at := updNow }
          else j) })

/-- `update_job_state(conn, job_id, new_state, attempts)`:
`UPDATE jobs SET state=?, attempts=?, updated_at=? WHERE id=?`. -/
def update_job_state (s : Store) (job_id new_state : String) (attempts : Nat)
    (now : String) : Store :=
  { s with
    jobs := s.jobs.map (fun j =>
      if j.id = job_id then
        { j with state := new_state, attempts := attempts, updated_at := now }
      else j) }

/-- Python `job["max_retries"] or max_retries_conf`: the job's own value
unless it is falsy (`0`), in which case the config snapshot. -/
def pyOrIntConfig (n : Int) (c : ConfigValue) : ConfigValue :=
  if n = 0 then c else ConfigValue.int n

/-- Python `a < c` for an int `a` against a config snapshot: defined when the
snapshot is an int, a `TypeError` (`none`) when it is a leftover string. -/
def pyLtIntConfig (a : Int) (c : ConfigValue) : Option Bool :=
  match c with
  | ConfigValue.int n => some (decide (a < n))
  | ConfigValue.str _ => none

/-- The worker's `base` computation: `int(backoff_base_conf)` with the
`except` clause falling back to `DEFAULT_BACKOFF_BASE`. -/
def resolveBackoffBase (c : ConfigValue) : Int :=
  match c with
  | ConfigValue.int n => n
  | ConfigValue.str v => (pyIntOfString v).getD DEFAULT_BACKOFF_BASE

/-- One iteration of the `while` body of `process_loop`: claim a job (with the
two `now_iso()` values `selNow`, `updNow`), execute it (`execSuccess` gives the
success of `execute_job_with_logging` per command), and persist the outcome at
`doneNow`.  `mconf`/`bconf` are the worker's startup snapshots
`max_retries_conf`/`backoff_base_conf`.  Returns `none` when the iteration
raises (the uncaught `TypeError` of comparing an int to a string config),
otherwise the new store and, on a retried failure, the computed backoff delay
in seconds. -/
def process_loop_step (selNow updNow doneNow : String)
    (execSuccess : String → Bool) (mconf bconf : ConfigValue) (s : Store) :
    Option (Store × Option Int) :=
  match fetch_pending_job selNow updNow s with
  | (none, s1) => some (s1, none)
  | (some job, s1) =>
    if execSuccess job.command then
      some (update_job_state s1 job.id "completed" job.attempts doneNow, none)
    else
      let new_attempts := job.attempts + 1
      let job_max_retries := pyOrIntConfig job.max_retries mconf
      match pyLtIntConfig (new_attempts : Int) job_max_retries with
      | none => none
      | some true =>
        let base := resolveBackoffBase bconf
        let delay := base ^ new_attempts
        some (update_job_state s1 job.id "pending" new_attempts doneNow,
          some delay)
      | some false =>
        some (update_job_state s1 job.id "dead" new_attempts doneNow, none)

/-- Iterate `process_loop_step` (with fixed timestamps and config snapshot)
`n` times, propagating a raised iteration as `none`. -/
def iterateSteps (selNow updNow doneNow : String) (execSuccess : String → Bool)
    (mconf bconf : ConfigValue) : Nat → Store → Option Store
  | 0, s => some s
  | n + 1, s =>
    match process_loop_step selNow updNow doneNow execSuccess mconf bconf s with
    | none => none
    | some (s1, _) => iterateSteps selNow updNow doneNow execSuccess mconf bconf n s1

/-- `dlq_retry(job_id)`: `SELECT * FROM jobs WHERE id=? AND state='dead'`;
if no such row, report not-found and change nothing; otherwise
`UPDATE jobs SET state='pending', attempts=0, updated_at=? WHERE id=?`.
Returns whether the job was found, and the store. -/
def dlq_retry (now job_id : String) (s : Store) : Bool × Store :=
  match s.jobs.find? (fun j => decide (j.id = job_id) && decide (j.state = "dead")) with
  | none => (false, s)
  | some _ =>
    (true,
      { s with
        jobs := s.jobs.map (fun j =>
          if j.id = job_id then
            { j with state := "pending", attempts := 0, updated_at := now }
          else j) })

/-- `pause_job(job_id)`: `UPDATE jobs SET state='paused', updated_at=?
WHERE id=?`; not-found exactly when the update matched no row (the store is
then unchanged). -/
def pause_job (now job_id : String) (s : Store) : Bool × Store :=
  if s.jobs.any (fun j => decide (j.id = job_id)) then
    (true,
      { s with
        jobs := s.jobs.map (fun j =>
          if j.id = job_id then
            { j with state := "paused", updated_at := now }
          else j) })
  else (false, s)


/-! ## Helper lemmas about the ordering and the claim operation -/

theorem betterRow_iff {a b : Job} : betterRow a b = true ↔
    (b.priority < a.priority ∨ (a.priority = b.priority ∧ a.created_at < b.created_at)) := by
  simp [betterRow]

theorem betterRow_false_iff {a b : Job} : betterRow a b = false ↔
    ¬ (b.priority < a.priority ∨ (a.priority = b.priority ∧ a.created_at < b.created_at)) := by
  rw [Bool.eq_false_iff]
  exact not_congr betterRow_iff

theorem betterRow_irrefl (a : Job) : betterRow a a = false := by
  simp [betterRow]

theorem betterRow_asymm {a b : Job} (h : betterRow a b = true) :
    betterRow b a = false := by
  rw [betterRow_iff] at h
  rw [betterRow_false_iff]
  push_neg
  constructor
  · rcases h with h | ⟨hp, _⟩
    · omega
    · omega
  · intro hp
    rcases h with h | ⟨hp2, hc⟩
    · omega
    · intro hc2
      exact absurd hc2 (lt_asymm hc)

theorem betterRow_false_trans {a b c : Job} (h1 : betterRow a b = false)
    (h2 : betterRow b c = false) : betterRow a c = false := by
  rw [betterRow_false_iff] at h1 h2 ⊢
  push_neg at h1 h2
  obtain ⟨hp1, hs1⟩ := h1
  obtain ⟨hp2, hs2⟩ := h2
  push_neg
  constructor
  · omega
  · intro hpe
    have hab : a.priority = b.priority := by omega
    have hbc : b.priority = c.priority := by omega
    exact le_trans (hs2 hbc) (hs1 hab)

theorem selectBest_eq_none {l : List Job} (h : selectBest l = none) : l = [] := by
  cases l with
  | nil => rfl
  | cons j rest =>
    cases hr : selectBest rest with
    | none =>
      simp only [selectBest, hr] at h
      exact Option.noConfusion h
    | some c =>
      simp only [selectBest, hr] at h
      split at h <;> simp at h

theorem selectBest_mem : ∀ {l : List Job} {b : Job}, selectBest l = some b → b ∈ l := by
  intro l
  induction l with
  | nil => intro b h; simp [selectBest] at h
  | cons j rest ih =>
    intro b h
    cases hr : selectBest rest with
    | none =>
      simp only [selectBest, hr] at h
      obtain rfl : j = b := Option.some.inj h
      exact List.mem_cons_self j rest
    | some c =>
      simp only [selectBest, hr] at h
      split at h
      · obtain rfl : c = b := Option.some.inj h
        exact List.mem_cons_of_mem j (ih hr)
      · obtain rfl : j = b := Option.some.inj h
        exact List.mem_cons_self j rest

theorem selectBest_minimal : ∀ {l : List Job} {b : Job}, selectBest l = some b →
    ∀ x ∈ l, betterRow x b = false := by
  intro l
  induction l with
  | nil => intro b h; simp [selectBest] at h
  | cons j rest ih =>
    intro b h
    cases hr : selectBest rest with
    | none =>
      have hnil : rest = [] := selectBest_eq_none hr
      subst hnil
      simp only [selectBest] at h
      obtain rfl : j = b := Option.some.inj h
      intro x hx
      rw [List.mem_singleton] at hx
      exact hx ▸ betterRow_irrefl j
    | some c =>
      simp only [selectBest, hr] at h
      intro x hx
      rw [List.mem_cons] at hx
      by_cases hcj : betterRow c j = true
      · rw [if_pos hcj] at h
        obtain rfl : c = b := Option.some.inj h
        rcases hx with rfl | hx
        · exact betterRow_asymm hcj
        · exact ih hr x hx
      · rw [if_neg hcj] at h
        obtain rfl : j = b := Option.some.inj h
        rcases hx with rfl | hx
        · exact betterRow_irrefl x
        · exact betterRow_false_trans (ih hr x hx) (Bool.eq_false_iff.mpr hcj)

theorem fetch_none_store {selNow updNow : String} {s s1 : Store}
    (h : fetch_pending_job selNow updNow s = (none, s1)) : s1 = s := by
  unfold fetch_pending_job at h
  cases hsel : selectBest (s.jobs.filter (eligibleJob selNow)) with
  | none =>
    rw [hsel] at h
    exact ((Prod.mk.injEq _ _ _ _).mp h).2.symm
  | some row =>
    rw [hsel] at h
    exact absurd ((Prod.mk.injEq _ _ _ _).mp h).1 (by simp)

theorem fetch_some_spec {selNow updNow : String} {s s1 : Store} {snap : JobSnapshot}
    (h : fetch_pending_job selNow updNow s = (some snap, s1)) :
    ∃ row, selectBest (s.jobs.filter (eligibleJob selNow)) = some row ∧
      snap = snapshotOf row ∧
      s1 = { s with
        jobs := s.jobs.map (fun j =>
          if j.id = row.id then
            { j with state := "processing", updated_at := updNow }
          else j) } := by
  unfold fetch_pending_job at h
  cases hsel : selectBest (s.jobs.filter (eligibleJob selNow)) with
  | none =>
    rw [hsel] at h
    exact absurd ((Prod.mk.injEq _ _ _ _).mp h).1 (by simp)
  | some row =>
    rw [hsel] at h
    obtain ⟨h1, h2⟩ := (Prod.mk.injEq _ _ _ _).mp h
    exact ⟨row, rfl, (Option.some.inj h1).symm, h2.symm⟩

theorem eligibleJob_pending {now : String} {j : Job}
    (h : eligibleJob now j = true) : j.state = "pending" := by
  simp only [eligibleJob, Bool.and_eq_true, decide_eq_true_eq] at h
  exact h.1


/-- Claim C2: `fetch_pending_job` returns a job only if that job is eligible
(`state = pending` and `run_at` unset or `run_at ≤ now`); among all eligible
jobs it selects one that no other eligible job sorts strictly before in
`priority DESC, created_at ASC` order; it never returns a `paused` job; and
the job it returns is marked `processing` in the resulting store. -/
theorem claimNext_spec (selNow updNow : String) (s : Store)
    (snap : JobSnapshot) (s2 : Store)
    (h : fetch_pending_job selNow updNow s = (some snap, s2)) :
    ∃ j ∈ s.jobs,
      snap = snapshotOf j ∧
      j.state = "pending" ∧
      j.state ≠ "paused" ∧
      eligibleJob selNow j = true ∧
      (∀ x ∈ s.jobs, eligibleJob selNow x = true → betterRow x j = false) ∧
      (∀ k ∈ s2.jobs, k.id = snap.id → k.state = "processing") ∧
      (∃ k ∈ s2.jobs, k.id = snap.id ∧ k.state = "processing") := by
  obtain ⟨row, hsel, hsnap, hs2⟩ := fetch_some_spec h
  have hrowmem := selectBest_mem hsel
  rw [List.mem_filter] at hrowmem
  obtain ⟨hmem, helig⟩ := hrowmem
  have hpend := eligibleJob_pending helig
  have hid : snap.id = row.id := by rw [hsnap]; rfl
  subst hs2
  refine ⟨row, hmem, hsnap, hpend, by rw [hpend]; decide, helig, ?_, ?_, ?_⟩
  · intro x hx hex
    exact selectBest_minimal hsel x (List.mem_filter.mpr ⟨hx, hex⟩)
  · intro k hk hkid
    simp only [List.mem_map] at hk
    obtain ⟨y, hy, rfl⟩ := hk
    by_cases hyid : y.id = row.id
    · simp [hyid]
    · rw [if_neg hyid] at hkid ⊢
      exact absurd (hid ▸ hkid) hyid
  · refine ⟨{ row with state := "processing", updated_at := updNow }, ?_, ?_, rfl⟩
    · simp only [List.mem_map]
      exact ⟨row, hmem, by rw [if_pos rfl]⟩
    · rw [hid]

/-- Claim C8: when `fetch_pending_job` claims a job it mutates only that job's
`state` and `updated_at`: the config table, the number of rows, every other
row, and every other field of the claimed row are unchanged, and the snapshot
handed to the caller carries the pre-claim field values of a `pending` row. -/
theorem claimNext_frame (selNow updNow : String) (s : Store)
    (snap : JobSnapshot) (s2 : Store)
    (h : fetch_pending_job selNow updNow s = (some snap, s2)) :
    s2.config = s.config ∧
    s2.jobs.length = s.jobs.length ∧
    (∃ j ∈ s.jobs, j.id = snap.id ∧ j.state = "pending" ∧ snap = snapshotOf j) ∧
    (∀ (i : Nat) (hi : i < s.jobs.length) (hi2 : i < s2.jobs.length),
      (s2.jobs.get ⟨i, hi2⟩).id = (s.jobs.get ⟨i, hi⟩).id ∧
      (s2.jobs.get ⟨i, hi2⟩).command = (s.jobs.get ⟨i, hi⟩).command ∧
      (s2.jobs.get ⟨i, hi2⟩).attempts = (s.jobs.get ⟨i, hi⟩).attempts ∧
      (s2.jobs.get ⟨i, hi2⟩).max_retries = (s.jobs.get ⟨i, hi⟩).max_retries ∧
      (s2.jobs.get ⟨i, hi2⟩).created_at = (s.jobs.get ⟨i, hi⟩).created_at ∧
      (s2.jobs.get ⟨i, hi2⟩).priority = (s.jobs.get ⟨i, hi⟩).priority ∧
      (s2.jobs.get ⟨i, hi2⟩).run_at = (s.jobs.get ⟨i, hi⟩).run_at ∧
      ((s.jobs.get ⟨i, hi⟩).id ≠ snap.id →
        s2.jobs.get ⟨i, hi2⟩ = s.jobs.get ⟨i, hi⟩)) := by
  obtain ⟨row, hsel, hsnap, hs2⟩ := fetch_some_spec h
  have hrowmem := selectBest_mem hsel
  rw [List.mem_filter] at hrowmem
  obtain ⟨hmem, helig⟩ := hrowmem
  have hid : snap.id = row.id := by rw [hsnap]; rfl
  subst hs2
  refine ⟨rfl, by simp, ⟨row, hmem, hid.symm, eligibleJob_pending helig, hsnap⟩, ?_⟩
  intro i hi hi2
  simp only [List.get_eq_getElem, List.getElem_map]
  by_cases hyid : (s.jobs.get ⟨i, hi⟩).id = row.id
  · rw [List.get_eq_getElem] at hyid
    rw [hid]
    simp [hyid]
  · rw [List.get_eq_getElem] at hyid
    rw [hid]
    simp [hyid]


/-- Claim C2 witness: a concrete two-job store in which the claim operation
picks the higher-priority pending job. -/
theorem claimNext_spec_witness :
    ∃ j ∈ (Store.mk [Job.mk "a" "c" "pending" 0 3 "T1" "T1" 0 none,
        Job.mk "b" "d" "pending" 0 3 "T2" "T2" 5 none] []).jobs,
      (JobSnapshot.mk "b" "d" 0 3 5 none) = snapshotOf j ∧
      j.state = "pending" ∧
      j.state ≠ "paused" ∧
      eligibleJob "T5" j = true ∧
      (∀ x ∈ (Store.mk [Job.mk "a" "c" "pending" 0 3 "T1" "T1" 0 none,
          Job.mk "b" "d" "pending" 0 3 "T2" "T2" 5 none] []).jobs,
        eligibleJob "T5" x = true → betterRow x j = false) ∧
      (∀ k ∈ (Store.mk [Job.mk "a" "c" "pending" 0 3 "T1" "T1" 0 none,
          Job.mk "b" "d" "processing" 0 3 "T2" "T6" 5 none] []).jobs,
        k.id = (JobSnapshot.mk "b" "d" 0 3 5 none).id → k.state = "processing") ∧
      (∃ k ∈ (Store.mk [Job.mk "a" "c" "pending" 0 3 "T1" "T1" 0 none,
          Job.mk "b" "d" "processing" 0 3 "T2" "T6" 5 none] []).jobs,
        k.id = (JobSnapshot.mk "b" "d" 0 3 5 none).id ∧ k.state = "processing") :=
  claimNext_spec "T5" "T6"
    (Store.mk [Job.mk "a" "c" "pending" 0 3 "T1" "T1" 0 none,
      Job.mk "b" "d" "pending" 0 3 "T2" "T2" 5 none] [])
    (JobSnapshot.mk "b" "d" 0 3 5 none)
    (Store.mk [Job.mk "a" "c" "pending" 0 3 "T1" "T1" 0 none,
      Job.mk "b" "d" "processing" 0 3 "T2" "T6" 5 none] [])
    (by decide)

/-- Claim C8 witness: in a concrete two-job store the claim touches only the
claimed row's `state` and `updated_at`. -/
theorem claimNext_frame_witness :
    (Store.mk [Job.mk "x" "cx" "pending" 1 4 "S1" "S1" 2 none,
        Job.mk "y" "cy" "paused" 0 3 "S2" "S2" 9 none] [("k", "v")]).config =
      (Store.mk [Job.mk "x" "cx" "pending" 1 4 "S1" "S1" 2 none,
        Job.mk "y" "cy" "paused" 0 3 "S2" "S2" 9 none] [("k", "v")]).config ∧
    (Store.mk [Job.mk "x" "cx" "processing" 1 4 "S1" "S6" 2 none,
        Job.mk "y" "cy" "paused" 0 3 "S2" "S2" 9 none] [("k", "v")]).jobs.length =
      (Store.mk [Job.mk "x" "cx" "pending" 1 4 "S1" "S1" 2 none,
        Job.mk "y" "cy" "paused" 0 3 "S2" "S2" 9 none] [("k", "v")]).jobs.length ∧
    (∃ j ∈ (Store.mk [Job.mk "x" "cx" "pending" 1 4 "S1" "S1" 2 none,
        Job.mk "y" "cy" "paused" 0 3 "S2" "S2" 9 none] [("k", "v")]).jobs,
      j.id = (JobSnapshot.mk "x" "cx" 1 4 2 none).id ∧ j.state = "pending" ∧
      (JobSnapshot.mk "x" "cx" 1 4 2 none) = snapshotOf j) ∧
    (∀ (i : Nat)
      (hi : i < (Store.mk [Job.mk "x" "cx" "pending" 1 4 "S1" "S1" 2 none,
        Job.mk "y" "cy" "paused" 0 3 "S2" "S2" 9 none] [("k", "v")]).jobs.length)
      (hi2 : i < (Store.mk [Job.mk "x" "cx" "processing" 1 4 "S1" "S6" 2 none,
        Job.mk "y" "cy" "paused" 0 3 "S2" "S2" 9 none] [("k", "v")]).jobs.length),
      ((Store.mk [Job.mk "x" "cx" "processing" 1 4 "S1" "S6" 2 none,
        Job.mk "y" "cy" "paused" 0 3 "S2" "S2" 9 none] [("k", "v")]).jobs.get ⟨i, hi2⟩).id =
        ((Store.mk [Job.mk "x" "cx" "pending" 1 4 "S1" "S1" 2 none,
        Job.mk "y" "cy" "paused" 0 3 "S2" "S2" 9 none] [("k", "v")]).jobs.get ⟨i, hi⟩).id ∧
      ((Store.mk [Job.mk "x" "cx" "processing" 1 4 "S1" "S6" 2 none,
        Job.mk "y" "cy" "paused" 0 3 "S2" "S2" 9 none] [("k", "v")]).jobs.get ⟨i, hi2⟩).command =
        ((Store.mk [Job.mk "x" "cx" "pending" 1 4 "S1" "S1" 2 none,
        Job.mk "y" "cy" "paused" 0 3 "S2" "S2" 9 none] [("k", "v")]).jobs.get ⟨i, hi⟩).command ∧
      ((Store.mk [Job.mk "x" "cx" "processing" 1 4 "S1" "S6" 2 none,
        Job.mk "y" "cy" "paused" 0 3 "S2" "S2" 9 none] [("k", "v")]).jobs.get ⟨i, hi2⟩).attempts =
        ((Store.mk [Job.mk "x" "cx" "pending" 1 4 "S1" "S1" 2 none,
        Job.mk "y" "cy" "paused" 0 3 "S2" "S2" 9 none] [("k", "v")]).jobs.get ⟨i, hi⟩).attempts ∧
      ((Store.mk [Job.mk "x" "cx" "processing" 1 4 "S1" "S6" 2 none,
        Job.mk "y" "cy" "paused" 0 3 "S2" "S2" 9 none] [("k", "v")]).jobs.get ⟨i, hi2⟩).max_retries =
        ((Store.mk [Job.mk "x" "cx" "pending" 1 4 "S1" "S1" 2 none,
        Job.mk "y" "cy" "paused" 0 3 "S2" "S2" 9 none] [("k", "v")]).jobs.get ⟨i, hi⟩).max_retries ∧
      ((Store.mk [Job.mk "x" "cx" "processing" 1 4 "S1" "S6" 2 none,
        Job.mk "y" "cy" "paused" 0 3 "S2" "S2" 9 none] [("k", "v")]).jobs.get ⟨i, hi2⟩).created_at =
        ((Store.mk [Job.mk "x" "cx" "pending" 1 4 "S1" "S1" 2 none,
        Job.mk "y" "cy" "paused" 0 3 "S2" "S2" 9 none] [("k", "v")]).jobs.get ⟨i, hi⟩).created_at ∧
      ((Store.mk [Job.mk "x" "cx" "processing" 1 4 "S1" "S6" 2 none,
        Job.mk "y" "cy" "paused" 0 3 "S2" "S2" 9 none] [("k", "v")]).jobs.get ⟨i, hi2⟩).priority =
        ((Store.mk [Job.mk "x" "cx" "pending" 1 4 "S1" "S1" 2 none,
        Job.mk "y" "cy" "paused" 0 3 "S2" "S2" 9 none] [("k", "v")]).jobs.get ⟨i, hi⟩).priority ∧
      ((Store.mk [Job.mk "x" "cx" "processing" 1 4 "S1" "S6" 2 none,
        Job.mk "y" "cy" "paused" 0 3 "S2" "S2" 9 none] [("k", "v")]).jobs.get ⟨i, hi2⟩).run_at =
        ((Store.mk [Job.mk "x" "cx" "pending" 1 4 "S1" "S1" 2 none,
        Job.mk "y" "cy" "paused" 0 3 "S2" "S2" 9 none] [("k", "v")]).jobs.get ⟨i, hi⟩).run_at ∧
      (((Store.mk [Job.mk "x" "cx" "pending" 1 4 "S1" "S1" 2 none,
        Job.mk "y" "cy" "paused" 0 3 "S2" "S2" 9 none] [("k", "v")]).jobs.get ⟨i, hi⟩).id ≠
          (JobSnapshot.mk "x" "cx" 1 4 2 none).id →
        (Store.mk [Job.mk "x" "cx" "processing" 1 4 "S1" "S6" 2 none,
          Job.mk "y" "cy" "paused" 0 3 "S2" "S2" 9 none] [("k", "v")]).jobs.get ⟨i, hi2⟩ =
          (Store.mk [Job.mk "x" "cx" "pending" 1 4 "S1" "S1" 2 none,
            Job.mk "y" "cy" "paused" 0 3 "S2" "S2" 9 none] [("k", "v")]).jobs.get ⟨i, hi⟩)) :=
  claimNext_frame "S5" "S6"
    (Store.mk [Job.mk "x" "cx" "pending" 1 4 "S1" "S1" 2 none,
      Job.mk "y" "cy" "paused" 0 3 "S2" "S2" 9 none] [("k", "v")])
    (JobSnapshot.mk "x" "cx" 1 4 2 none)
    (Store.mk [Job.mk "x" "cx" "processing" 1 4 "S1" "S6" 2 none,
      Job.mk "y" "cy" "paused" 0 3 "S2" "S2" 9 none] [("k", "v")])
    (by decide)


/-- Claim C5: enqueueing a descriptor whose (truthy) id already names an
existing job fails with the duplicate-job error and returns the store
unchanged: every field of every existing row is as before and no row is
added. -/
theorem enqueue_duplicate_rejected (d : Descriptor) (ts : String) (s : Store)
    (x : Job) (hx : x ∈ s.jobs) (hid : d.id = some x.id) (hne : x.id ≠ "")
    (hcmd : pyTruthyStr d.command = true) :
    enqueue d ts s = (some EnqueueError.duplicate, s) := by
  unfold enqueue
  rw [hid]
  have htruthy : pyTruthyStr (some x.id) = true := by
    simp [pyTruthyStr, hne]
  rw [htruthy, hcmd]
  have hany : s.jobs.any (fun j => decide (j.id = (some x.id).getD "")) = true := by
    rw [List.any_eq_true]
    exact ⟨x, hx, by simp⟩
  simp [hany]
  exact ⟨x, hx, rfl⟩

/-- Claim C5 witness: re-enqueueing id `"a"` into a store that already holds
job `"a"` is rejected and the store is untouched. -/
theorem enqueue_duplicate_rejected_witness :
    enqueue (Descriptor.mk (some "a") (some "newcmd") none none none) "T9"
        (Store.mk [Job.mk "a" "c" "completed" 2 3 "T1" "T2" 0 none] []) =
      (some EnqueueError.duplicate,
        Store.mk [Job.mk "a" "c" "completed" 2 3 "T1" "T2" 0 none] []) :=
  enqueue_duplicate_rejected
    (Descriptor.mk (some "a") (some "newcmd") none none none) "T9"
    (Store.mk [Job.mk "a" "c" "completed" 2 3 "T1" "T2" 0 none] [])
    (Job.mk "a" "c" "completed" 2 3 "T1" "T2" 0 none)
    (by decide) (by decide) (by decide) (by decide)

/-- Claim C9: enqueue rejects a descriptor whose `id` or `command` is falsy —
absent or the empty string — with a validation error and an unchanged store
(so before any mutation), and consequently enqueue preserves the invariant
that no job row has an empty id or empty command. -/
theorem enqueue_validation_spec (d : Descriptor) (ts : String) (s : Store) :
    (pyTruthyStr d.id = false → enqueue d ts s = (some EnqueueError.missingId, s)) ∧
    (d.id = some "" → pyTruthyStr d.id = false) ∧
    (pyTruthyStr d.id = true → pyTruthyStr d.command = false →
      enqueue d ts s = (some EnqueueError.missingCommand, s)) ∧
    (d.command = some "" → pyTruthyStr d.command = false) ∧
    ((∀ j ∈ s.jobs, j.id ≠ "" ∧ j.command ≠ "") →
      ∀ j ∈ (enqueue d ts s).2.jobs, j.id ≠ "" ∧ j.command ≠ "") := by
  refine ⟨?_, ?_, ?_, ?_, ?_⟩
  · intro hfalsy
    unfold enqueue
    rw [hfalsy]
    simp
  · intro hempty
    simp [pyTruthyStr, hempty]
  · intro htruthy hfalsy
    unfold enqueue
    rw [htruthy, hfalsy]
    simp
  · intro hempty
    simp [pyTruthyStr, hempty]
  · intro hinv j hj
    unfold enqueue at hj
    by_cases h1 : pyTruthyStr d.id = true
    · by_cases h2 : pyTruthyStr d.command = true
      · rw [h1, h2] at hj
        by_cases h3 : s.jobs.any (fun x => decide (x.id = d.id.getD "")) = true
        · simp only [h3] at hj
          simp at hj
          exact hinv j hj
        · rw [Bool.not_eq_true] at h3
          simp only [h3] at hj
          simp at hj
          rcases hj with hj | hj
          · exact hinv j hj
          · obtain ⟨tid, htid⟩ : ∃ t, d.id = some t := by
              cases hdid : d.id with
              | none => rw [hdid] at h1; simp [pyTruthyStr] at h1
              | some t => exact ⟨t, rfl⟩
            obtain ⟨tc, htc⟩ : ∃ t, d.command = some t := by
              cases hdc : d.command with
              | none => rw [hdc] at h2; simp [pyTruthyStr] at h2
              | some t => exact ⟨t, rfl⟩
            have hidne : tid ≠ "" := by
              rw [htid] at h1; simpa [pyTruthyStr] using h1
            have hcmdne : tc ≠ "" := by
              rw [htc] at h2; simpa [pyTruthyStr] using h2
            rw [hj]
            constructor
            · simpa [htid] using hidne
            · simpa [htc] using hcmdne
      · rw [Bool.not_eq_true] at h2
        rw [h1, h2] at hj
        simp at hj
        exact hinv j hj
    · rw [Bool.not_eq_true] at h1
      rw [h1] at hj
      simp at hj
      exact hinv j hj

/-- Claim C9 witness: a present-but-empty id and a present-but-empty command
are both rejected with the store unchanged, and the no-empty-fields invariant
survives a successful enqueue. -/
theorem enqueue_validation_spec_witness :
    enqueue (Descriptor.mk (some "") (some "cmd") none none none) "T1"
        (Store.mk [] []) =
      (some EnqueueError.missingId, Store.mk [] []) ∧
    enqueue (Descriptor.mk (some "j") (some "") none none none) "T1"
        (Store.mk [] []) =
      (some EnqueueError.missingCommand, Store.mk [] []) ∧
    (∀ j ∈ (enqueue (Descriptor.mk (some "j") (some "cmd") none none none) "T1"
        (Store.mk [] [])).2.jobs, j.id ≠ "" ∧ j.command ≠ "") :=
  ⟨(enqueue_validation_spec
      (Descriptor.mk (some "") (some "cmd") none none none) "T1"
      (Store.mk [] [])).1 (by decide),
   (enqueue_validation_spec
      (Descriptor.mk (some "j") (some "") none none none) "T1"
      (Store.mk [] [])).2.2.1 (by decide) (by decide),
   (enqueue_validation_spec
      (Descriptor.mk (some "j") (some "cmd") none none none) "T1"
      (Store.mk [] [])).2.2.2.2 (by simp)⟩


/-- Claim C6: `dlq_retry` reports found (and resets the job to
`state = pending`, `attempts = 0`) exactly when a job with the given id exists
in state `dead`; for a missing id or a job in any other state it reports
not-found and leaves the store unchanged. -/
theorem dlq_retry_spec (now job_id : String) (s : Store) :
    ((dlq_retry now job_id s).1 = true ↔
      ∃ j ∈ s.jobs, j.id = job_id ∧ j.state = "dead") ∧
    ((dlq_retry now job_id s).1 = false → (dlq_retry now job_id s).2 = s) ∧
    ((dlq_retry now job_id s).1 = true →
      (∃ j ∈ (dlq_retry now job_id s).2.jobs, j.id = job_id) ∧
      ∀ j ∈ (dlq_retry now job_id s).2.jobs, j.id = job_id →
        j.state = "pending" ∧ j.attempts = 0 ∧ j.updated_at = now) := by
  unfold dlq_retry
  cases hf : s.jobs.find? (fun j => decide (j.id = job_id) && decide (j.state = "dead")) with
  | none =>
    dsimp only
    refine ⟨iff_of_false (by simp) ?_, fun _ => rfl, by simp⟩
    rintro ⟨j, hj, hjid, hjst⟩
    have := List.find?_eq_none.mp hf j hj
    simp [hjid, hjst] at this
  | some f =>
    have hfmem := List.mem_of_find?_eq_some hf
    have hfp := List.find?_some hf
    simp only [Bool.and_eq_true, decide_eq_true_eq] at hfp
    dsimp only
    refine ⟨iff_of_true rfl ⟨f, hfmem, hfp.1, hfp.2⟩, by simp, ?_⟩
    intro _
    constructor
    · refine ⟨{ f with state := "pending", attempts := 0, updated_at := now }, ?_, hfp.1⟩
      simp only [List.mem_map]
      exact ⟨f, hfmem, by rw [if_pos hfp.1]⟩
    · intro j hj hjid
      simp only [List.mem_map] at hj
      obtain ⟨y, hy, rfl⟩ := hj
      by_cases hyid : y.id = job_id
      · simp [hyid]
      · rw [if_neg hyid] at hjid ⊢
        exact absurd hjid hyid

/-- Claim C6 witness: retrying a dead job resets it; retrying a completed or
missing id reports not-found with no change. -/
theorem dlq_retry_spec_witness :
    ((dlq_retry "T9" "a" (Store.mk [Job.mk "a" "c" "dead" 3 3 "T1" "T2" 0 none] [])).1 = true →
      (∃ j ∈ (dlq_retry "T9" "a"
          (Store.mk [Job.mk "a" "c" "dead" 3 3 "T1" "T2" 0 none] [])).2.jobs,
        j.id = "a") ∧
      ∀ j ∈ (dlq_retry "T9" "a"
          (Store.mk [Job.mk "a" "c" "dead" 3 3 "T1" "T2" 0 none] [])).2.jobs,
        j.id = "a" → j.state = "pending" ∧ j.attempts = 0 ∧ j.updated_at = "T9") ∧
    ((dlq_retry "T9" "b" (Store.mk [Job.mk "b" "c" "completed" 1 3 "T1" "T2" 0 none] [])).1 = false →
      (dlq_retry "T9" "b" (Store.mk [Job.mk "b" "c" "completed" 1 3 "T1" "T2" 0 none] [])).2 =
        Store.mk [Job.mk "b" "c" "completed" 1 3 "T1" "T2" 0 none] []) :=
  ⟨(dlq_retry_spec "T9" "a" (Store.mk [Job.mk "a" "c" "dead" 3 3 "T1" "T2" 0 none] [])).2.2,
   (dlq_retry_spec "T9" "b" (Store.mk [Job.mk "b" "c" "completed" 1 3 "T1" "T2" 0 none] [])).2.1⟩

/-- Claim C7: `pause_job` on an existing id sets that job's state to `paused`
and refreshes `updated_at`, whatever state the job is in; a missing id is
reported not-found with the store unchanged. -/
theorem pause_job_spec (now job_id : String) (s : Store) :
    ((∃ j ∈ s.jobs, j.id = job_id) →
      (pause_job now job_id s).1 = true ∧
      (∃ j ∈ (pause_job now job_id s).2.jobs, j.id = job_id) ∧
      ∀ j ∈ (pause_job now job_id s).2.jobs, j.id = job_id →
        j.state = "paused" ∧ j.updated_at = now) ∧
    ((¬ ∃ j ∈ s.jobs, j.id = job_id) →
      pause_job now job_id s = (false, s)) := by
  unfold pause_job
  constructor
  · rintro ⟨x, hx, hxid⟩
    have hany : s.jobs.any (fun j => decide (j.id = job_id)) = true := by
      rw [List.any_eq_true]
      exact ⟨x, hx, by simp [hxid]⟩
    rw [if_pos hany]
    refine ⟨rfl, ?_, ?_⟩
    · refine ⟨{ x with state := "paused", updated_at := now }, ?_, hxid⟩
      simp only [List.mem_map]
      exact ⟨x, hx, by rw [if_pos hxid]⟩
    · intro j hj hjid
      simp only [List.mem_map] at hj
      obtain ⟨y, hy, rfl⟩ := hj
      by_cases hyid : y.id = job_id
      · simp [hyid]
      · rw [if_neg hyid] at hjid ⊢
        exact absurd hjid hyid
  · intro hno
    have hany : s.jobs.any (fun j => decide (j.id = job_id)) = false := by
      rw [Bool.eq_false_iff, Ne, List.any_eq_true]
      rintro ⟨x, hx, hxid⟩
      exact hno ⟨x, hx, by simpa using hxid⟩
    rw [hany]
    simp

/-- Claim C7 witness: pausing a `processing` job and a `dead` job both
succeed; pausing a missing id is a not-found no-op. -/
theorem pause_job_spec_witness :
    ((pause_job "T9" "p" (Store.mk [Job.mk "p" "c" "processing" 1 3 "T1" "T2" 0 none,
        Job.mk "q" "c" "dead" 3 3 "T1" "T2" 0 none] [])).1 = true ∧
      (∃ j ∈ (pause_job "T9" "p" (Store.mk [Job.mk "p" "c" "processing" 1 3 "T1" "T2" 0 none,
          Job.mk "q" "c" "dead" 3 3 "T1" "T2" 0 none] [])).2.jobs, j.id = "p") ∧
      ∀ j ∈ (pause_job "T9" "p" (Store.mk [Job.mk "p" "c" "processing" 1 3 "T1" "T2" 0 none,
          Job.mk "q" "c" "dead" 3 3 "T1" "T2" 0 none] [])).2.jobs,
        j.id = "p" → j.state = "paused" ∧ j.updated_at = "T9") ∧
    pause_job "T9" "zz" (Store.mk [Job.mk "p" "c" "processing" 1 3 "T1" "T2" 0 none] []) =
      (false, Store.mk [Job.mk "p" "c" "processing" 1 3 "T1" "T2" 0 none] []) :=
  ⟨(pause_job_spec "T9" "p" (Store.mk [Job.mk "p" "c" "processing" 1 3 "T1" "T2" 0 none,
      Job.mk "q" "c" "dead" 3 3 "T1" "T2" 0 none] [])).1
      ⟨Job.mk "p" "c" "processing" 1 3 "T1" "T2" 0 none, by decide, rfl⟩,
   (pause_job_spec "T9" "zz" (Store.mk [Job.mk "p" "c" "processing" 1 3 "T1" "T2" 0 none] [])).2
      (by decide)⟩


/-- Claim C10: the worker's backoff-base resolution is a total function of the
stored `backoff_base` config string; it yields the parsed integer when the
string parses as an integer (`get_config` already converts it) and otherwise
falls back to the hardcoded default 2 (the `except` branch around
`int(backoff_base_conf)`); no string value can make it raise. -/
theorem backoff_base_total (s : Store) (v : String)
    (hv : s.config.lookup "backoff_base" = some v) :
    (∀ n, pyIntOfString v = some n →
      resolveBackoffBase
        (get_config s "backoff_base" (ConfigValue.int DEFAULT_BACKOFF_BASE)) = n) ∧
    (pyIntOfString v = none →
      resolveBackoffBase
        (get_config s "backoff_base" (ConfigValue.int DEFAULT_BACKOFF_BASE)) = 2) := by
  unfold get_config
  rw [hv]
  dsimp only
  constructor
  · intro n hn
    rw [hn]
    rfl
  · intro hn
    rw [hn]
    simp [resolveBackoffBase, DEFAULT_BACKOFF_BASE, hn]

/-- Claim C10 witness: an integer string resolves to its value; a
non-integer string resolves to the default 2 instead of raising. -/
theorem backoff_base_total_witness :
    resolveBackoffBase
      (get_config (Store.mk [] [("backoff_base", "7")]) "backoff_base"
        (ConfigValue.int DEFAULT_BACKOFF_BASE)) = 7 ∧
    resolveBackoffBase
      (get_config (Store.mk [] [("backoff_base", "two")]) "backoff_base"
        (ConfigValue.int DEFAULT_BACKOFF_BASE)) = 2 :=
  ⟨(backoff_base_total (Store.mk [] [("backoff_base", "7")]) "7" (by decide)).1 7 (by decide),
   (backoff_base_total (Store.mk [] [("backoff_base", "two")]) "two" (by decide)).2 (by decide)⟩

/-- Claim C4: whenever an iteration of the worker loop retries a failed job
(the branch that computes a delay), the failed attempt number is
`k = attempts + 1 ≥ 1`, the retry-ceiling test passed, and the computed delay
is exactly `base ^ k` by integer exponentiation, where `base` is the worker's
resolved backoff base (`int(backoff_base_conf)` with default 2, snapshotted
from global config). -/
theorem backoff_delay_formula (selNow updNow doneNow : String)
    (execSuccess : String → Bool) (mconf bconf : ConfigValue)
    (s s2 : Store) (d : Int)
    (h : process_loop_step selNow updNow doneNow execSuccess mconf bconf s =
      some (s2, some d)) :
    ∃ snap, (fetch_pending_job selNow updNow s).1 = some snap ∧
      execSuccess snap.command = false ∧
      pyLtIntConfig ((snap.attempts : Int) + 1)
        (pyOrIntConfig snap.max_retries mconf) = some true ∧
      1 ≤ snap.attempts + 1 ∧
      d = resolveBackoffBase bconf ^ (snap.attempts + 1) := by
  unfold process_loop_step at h
  cases hfp : fetch_pending_job selNow updNow s with
  | mk r s1 =>
    rw [hfp] at h
    cases r with
    | none =>
      dsimp only at h
      exact absurd ((Prod.mk.injEq _ _ _ _).mp (Option.some.inj h)).2 (by simp)
    | some snap =>
      dsimp only at h
      by_cases hex : execSuccess snap.command = true
      · rw [if_pos hex] at h
        exact absurd ((Prod.mk.injEq _ _ _ _).mp (Option.some.inj h)).2 (by simp)
      · rw [Bool.not_eq_true] at hex
        rw [hex] at h
        simp only [Bool.false_eq_true, if_false] at h
        cases hlt : pyLtIntConfig ((snap.attempts : Int) + 1)
            (pyOrIntConfig snap.max_retries mconf) with
        | none =>
          rw [Nat.cast_add, Nat.cast_one] at h
          rw [hlt] at h
          exact Option.noConfusion h
        | some b =>
          rw [Nat.cast_add, Nat.cast_one] at h
          rw [hlt] at h
          cases b with
          | false =>
            dsimp only at h
            exact absurd ((Prod.mk.injEq _ _ _ _).mp (Option.some.inj h)).2 (by simp)
          | true =>
            dsimp only at h
            obtain ⟨hs2, hd⟩ := (Prod.mk.injEq _ _ _ _).mp (Option.some.inj h)
            refine ⟨snap, rfl, hex, hlt, by omega, ?_⟩
            exact (Option.some.inj hd).symm


/-- Claim C4 witness: a concrete failing first attempt with base 2 computes
delay `2 ^ 1 = 2` seconds. -/
theorem backoff_delay_formula_witness :
    ∃ snap, (fetch_pending_job "T1" "T2"
        (Store.mk [Job.mk "a" "c" "pending" 0 3 "T0" "T0" 0 none] [])).1 = some snap ∧
      (fun (_ : String) => false) snap.command = false ∧
      pyLtIntConfig ((snap.attempts : Int) + 1)
        (pyOrIntConfig snap.max_retries (ConfigValue.int 3)) = some true ∧
      1 ≤ snap.attempts + 1 ∧
      (2 : Int) = resolveBackoffBase (ConfigValue.int 2) ^ (snap.attempts + 1) :=
  backoff_delay_formula "T1" "T2" "T3" (fun _ => false)
    (ConfigValue.int 3) (ConfigValue.int 2)
    (Store.mk [Job.mk "a" "c" "pending" 0 3 "T0" "T0" 0 none] [])
    (Store.mk [Job.mk "a" "c" "pending" 1 3 "T0" "T3" 0 none] [])
    2 (by decide)


/-- Claim C3: a job whose command fails on every execution and whose effective
retry ceiling (`job max_retries or config snapshot`) resolves to 3 is, after
exactly 3 failed executions, persisted as `dead` with `attempts = 3`; and no
worker iteration ever automatically transitions a `dead` job: in any store
with unique job ids, a `dead` job survives any completed worker iteration
entirely unchanged (only operations such as the manual DLQ retry touch it). -/
theorem failing_job_dead_after_three
    (jid cmd ts us t1 t2 t3 : String) (prio m : Int)
    (cfg : List (String × String)) (mconf bconf : ConfigValue)
    (execSuccess : String → Bool)
    (hceil : pyOrIntConfig m mconf = ConfigValue.int 3)
    (hfail : execSuccess cmd = false) :
    iterateSteps t1 t2 t3 execSuccess mconf bconf 3
        (Store.mk [Job.mk jid cmd "pending" 0 m ts us prio none] cfg) =
      some (Store.mk [Job.mk jid cmd "dead" 3 m ts t3 prio none] cfg) ∧
    (∀ (a b c : String) (ex : String → Bool) (mc bc : ConfigValue)
        (s s2 : Store) (dl : Option Int) (j : Job),
      (s.jobs.map Job.id).Nodup → j ∈ s.jobs → j.state = "dead" →
      process_loop_step a b c ex mc bc s = some (s2, dl) →
      j ∈ s2.jobs) := by
  constructor
  · have h1 : process_loop_step t1 t2 t3 execSuccess mconf bconf
        (Store.mk [Job.mk jid cmd "pending" 0 m ts us prio none] cfg) =
        some (Store.mk [Job.mk jid cmd "pending" 1 m ts t3 prio none] cfg,
          some (resolveBackoffBase bconf ^ 1)) := by
      simp [process_loop_step, fetch_pending_job, eligibleJob, selectBest,
        snapshotOf, update_job_state, pyLtIntConfig, hceil, hfail]
    have h2 : process_loop_step t1 t2 t3 execSuccess mconf bconf
        (Store.mk [Job.mk jid cmd "pending" 1 m ts t3 prio none] cfg) =
        some (Store.mk [Job.mk jid cmd "pending" 2 m ts t3 prio none] cfg,
          some (resolveBackoffBase bconf ^ 2)) := by
      simp [process_loop_step, fetch_pending_job, eligibleJob, selectBest,
        snapshotOf, update_job_state, pyLtIntConfig, hceil, hfail]
    have h3 : process_loop_step t1 t2 t3 execSuccess mconf bconf
        (Store.mk [Job.mk jid cmd "pending" 2 m ts t3 prio none] cfg) =
        some (Store.mk [Job.mk jid cmd "dead" 3 m ts t3 prio none] cfg, none) := by
      simp [process_loop_step, fetch_pending_job, eligibleJob, selectBest,
        snapshotOf, update_job_state, pyLtIntConfig, hceil, hfail]
    simp [iterateSteps, h1, h2, h3]
  · intro a b c ex mc bc s s2 dl j hnodup hmem hdead hstep
    unfold process_loop_step at hstep
    cases hfp : fetch_pending_job a b s with
    | mk r s1 =>
      rw [hfp] at hstep
      cases r with
      | none =>
        dsimp only at hstep
        obtain ⟨h1, _⟩ := (Prod.mk.injEq _ _ _ _).mp (Option.some.inj hstep)
        rw [← h1, fetch_none_store hfp]
        exact hmem
      | some snap =>
        obtain ⟨row, hsel, hsnap, hs1⟩ := fetch_some_spec hfp
        have hrowmem := selectBest_mem hsel
        rw [List.mem_filter] at hrowmem
        have hpend := eligibleJob_pending hrowmem.2
        have hne : j ≠ row := by
          intro he
          rw [he, hpend] at hdead
          exact absurd hdead (by decide)
        have hidne : j.id ≠ row.id := by
          intro he
          exact hne (List.inj_on_of_nodup_map hnodup hmem hrowmem.1 he)
        have hsnapid : snap.id = row.id := by rw [hsnap]; rfl
        have hj1 : j ∈ s1.jobs := by
          rw [hs1]
          simp only [List.mem_map]
          exact ⟨j, hmem, by rw [if_neg hidne]⟩
        have hj2 : ∀ (st : String) (at2 : Nat),
            j ∈ (update_job_state s1 snap.id st at2 c).jobs := by
          intro st at2
          unfold update_job_state
          simp only [List.mem_map]
          refine ⟨j, hj1, ?_⟩
          rw [if_neg (by rw [hsnapid]; exact hidne)]
        dsimp only at hstep
        by_cases hex : ex snap.command = true
        · rw [if_pos hex] at hstep
          obtain ⟨h1, _⟩ := (Prod.mk.injEq _ _ _ _).mp (Option.some.inj hstep)
          rw [← h1]
          exact hj2 "completed" snap.attempts
        · rw [Bool.not_eq_true] at hex
          rw [hex] at hstep
          simp only [Bool.false_eq_true, if_false] at hstep
          cases hlt : pyLtIntConfig ((snap.attempts + 1 : Nat) : Int)
              (pyOrIntConfig snap.max_retries mc) with
          | none =>
            rw [hlt] at hstep
            exact Option.noConfusion hstep
          | some bb =>
            rw [hlt] at hstep
            cases bb with
            | true =>
              dsimp only at hstep
              obtain ⟨h1, _⟩ := (Prod.mk.injEq _ _ _ _).mp (Option.some.inj hstep)
              rw [← h1]
              exact hj2 "pending" (snap.attempts + 1)
            | false =>
              dsimp only at hstep
              obtain ⟨h1, _⟩ := (Prod.mk.injEq _ _ _ _).mp (Option.some.inj hstep)
              rw [← h1]
              exact hj2 "dead" (snap.attempts + 1)


/-- Claim C3 witness: a concrete always-failing job with `max_retries = 3` is
dead with `attempts = 3` after three iterations, and a concrete dead job
survives a worker iteration untouched. -/
theorem failing_job_dead_after_three_witness :
    iterateSteps "T1" "T2" "T3" (fun _ => false) (ConfigValue.int 3)
        (ConfigValue.int 2) 3
        (Store.mk [Job.mk "w" "boom" "pending" 0 3 "T0" "T0" 0 none] []) =
      some (Store.mk [Job.mk "w" "boom" "dead" 3 3 "T0" "T3" 0 none] []) ∧
    Job.mk "z" "c" "dead" 3 3 "S0" "S1" 0 none ∈
      (Store.mk [Job.mk "z" "c" "dead" 3 3 "S0" "S1" 0 none] []).jobs :=
  ⟨(failing_job_dead_after_three "w" "boom" "T0" "T0" "T1" "T2" "T3" 0 3 []
      (ConfigValue.int 3) (ConfigValue.int 2) (fun _ => false)
      (by decide) rfl).1,
   (failing_job_dead_after_three "w" "boom" "T0" "T0" "T1" "T2" "T3" 0 3 []
      (ConfigValue.int 3) (ConfigValue.int 2) (fun _ => false)
      (by decide) rfl).2
     "S5" "S6" "S7" (fun _ => false) (ConfigValue.int 3) (ConfigValue.int 2)
     (Store.mk [Job.mk "z" "c" "dead" 3 3 "S0" "S1" 0 none] [])
     (Store.mk [Job.mk "z" "c" "dead" 3 3 "S0" "S1" 0 none] [])
     none (Job.mk "z" "c" "dead" 3 3 "S0" "S1" 0 none)
     (by decide) (by decide) rfl (by decide)⟩

/-- Claim C1 counterexample: with global config `max_retries = "5"`, a job
enqueued without a `max_retries` field gets the hardcoded default 3 stored at
insert time, and a worker snapshotting that config dead-letters it after its
3rd failure — so such a job is governed by 3, not by the global config value
5, contradicting the claim's parenthetical. -/
theorem retry_ceiling_counterexample :
    (enqueue (Descriptor.mk (some "j1") (some "boom") none none none) "T0"
        (Store.mk [] [("max_retries", "5")])).1 = none ∧
    get_config (enqueue (Descriptor.mk (some "j1") (some "boom") none none none)
        "T0" (Store.mk [] [("max_retries", "5")])).2 "max_retries"
      (ConfigValue.int DEFAULT_MAX_RETRIES) = ConfigValue.int 5 ∧
    iterateSteps "T1" "T2" "T3" (fun _ => false) (ConfigValue.int 5)
        (ConfigValue.int 2) 3
        (enqueue (Descriptor.mk (some "j1") (some "boom") none none none) "T0"
          (Store.mk [] [("max_retries", "5")])).2 =
      some (Store.mk [Job.mk "j1" "boom" "dead" 3 3 "T0" "T3" 0 none]
        [("max_retries", "5")]) ∧
    pyOrIntConfig 3 (ConfigValue.int 5) ≠ ConfigValue.int 5 ∧
    ((3 : Int) < 5) := by
  refine ⟨rfl, by decide, by decide, by decide, by decide⟩

/-- Claim C1 (amended): on a failed attempt the effective retry ceiling is the
job's stored `max_retries` when that is nonzero, else the worker's
`max_retries` config snapshot, which itself defaults to the hardcoded 3 when
the key is not configured; however a job enqueued without a `max_retries`
field has the hardcoded default 3 stored at insert time, so its ceiling is 3
(for every config snapshot) rather than the global config value. -/
theorem retry_ceiling_amended (m : Int) (cv : ConfigValue) (s : Store)
    (d : Descriptor) (ts : String) :
    (m ≠ 0 → pyOrIntConfig m cv = ConfigValue.int m) ∧
    (m = 0 → pyOrIntConfig m cv = cv) ∧
    (s.config.lookup "max_retries" = none →
      get_config s "max_retries" (ConfigValue.int DEFAULT_MAX_RETRIES) =
        ConfigValue.int 3) ∧
    (d.max_retries = none → ∀ j ∈ (enqueue d ts s).2.jobs, j ∉ s.jobs →
      j.max_retries = 3 ∧
      ∀ c2, pyOrIntConfig j.max_retries c2 = ConfigValue.int 3) := by
  refine ⟨?_, ?_, ?_, ?_⟩
  · intro hm
    unfold pyOrIntConfig
    rw [if_neg hm]
  · intro hm
    unfold pyOrIntConfig
    rw [if_pos hm]
  · intro hl
    unfold get_config
    rw [hl]
    rfl
  · intro hd j hj hnotin
    unfold enqueue at hj
    by_cases h1 : pyTruthyStr d.id = true
    · by_cases h2 : pyTruthyStr d.command = true
      · rw [h1, h2] at hj
        by_cases h3 : s.jobs.any (fun x => decide (x.id = d.id.getD "")) = true
        · simp only [h3] at hj
          simp at hj
          exact absurd hj hnotin
        · rw [Bool.not_eq_true] at h3
          simp only [h3] at hj
          simp at hj
          rcases hj with hj | hj
          · exact absurd hj hnotin
          · have hm3 : j.max_retries = 3 := by
              rw [hj, hd]
              rfl
            refine ⟨hm3, ?_⟩
            intro c2
            rw [hm3]
            unfold pyOrIntConfig
            rw [if_neg (by decide)]
      · rw [Bool.not_eq_true] at h2
        rw [h1, h2] at hj
        simp at hj
        exact absurd hj hnotin
    · rw [Bool.not_eq_true] at h1
      rw [h1] at hj
      simp at hj
      exact absurd hj hnotin

/-- Claim C1 witness: the three resolution cases of the amended ceiling rule
and the stored default of a field-less enqueue, at concrete inputs. -/
theorem retry_ceiling_amended_witness :
    pyOrIntConfig 4 (ConfigValue.int 9) = ConfigValue.int 4 ∧
    pyOrIntConfig 0 (ConfigValue.int 9) = ConfigValue.int 9 ∧
    get_config (Store.mk [] []) "max_retries"
      (ConfigValue.int DEFAULT_MAX_RETRIES) = ConfigValue.int 3 ∧
    (∀ j ∈ (enqueue (Descriptor.mk (some "w") (some "c") none none none) "T0"
        (Store.mk [] [])).2.jobs,
      j ∉ (Store.mk [] []).jobs →
      j.max_retries = 3 ∧
      ∀ c2, pyOrIntConfig j.max_retries c2 = ConfigValue.int 3) :=
  ⟨(retry_ceiling_amended 4 (ConfigValue.int 9) (Store.mk [] [])
      (Descriptor.mk (some "w") (some "c") none none none) "T0").1 (by decide),
   (retry_ceiling_amended 0 (ConfigValue.int 9) (Store.mk [] [])
      (Descriptor.mk (some "w") (some "c") none none none) "T0").2.1 rfl,
   (retry_ceiling_amended 0 (ConfigValue.int 9) (Store.mk [] [])
      (Descriptor.mk (some "w") (some "c") none none none) "T0").2.2.1 (by decide),
   (retry_ceiling_amended 0 (ConfigValue.int 9) (Store.mk [] [])
      (Descriptor.mk (some "w") (some "c") none none none) "T0").2.2.2 rfl⟩

end Queuectl
